import Mathlib

/-!
Verification development for the NIP-17/NIP-59 encrypted direct-message
subsystem of the `nostr-polls` repository.

The TypeScript sources embedded here are:
  - `src/nostr/nip17.ts` (gift-wrap protocol, inbox relay resolver, send),
  - the DM conversation context (`DMProvider`: `addMessage`,
    `addReactionToConversation`, `markAsRead`, `sendMessage`),
  - the chat view's publish tracker (`trackRelays`, `handleRetry`).

Modelling conventions:
  - JavaScript `Map` objects, plain objects used as dictionaries, and
    `localStorage` namespaces are modelled as insertion-ordered association
    lists (`lookupA` / `setA` mirror `get` / `set` semantics).
  - `nostr-tools` cryptography is modelled symbolically: a NIP-44
    conversation key is the unordered pair of the two parties' key
    material, which gives the ECDH identity
    `getConversationKey a (getPublicKey b) = getConversationKey b (getPublicKey a)`;
    ciphertext is a constructor pairing the conversation key with the
    plaintext, and decryption with any other key fails, as does decryption
    of malformed ciphertext.  `JSON.stringify`/`JSON.parse` of the rumor
    and seal payloads is modelled by a plaintext sum type whose parse
    functions fail exactly on the non-JSON constructor.
  - TypeScript exceptions are `Except.error`; `try`/`catch` blocks that
    convert exceptions to `null` are the corresponding `Option`-valued
    wrappers.
  - Awaited I/O results (network fetches, generated ephemeral keys,
    wall-clock and random timestamps) are explicit parameters.
-/

namespace NostrPolls

/-! ### Association list helpers (JS `Map` / object-dictionary semantics) -/

/-- `Map.get` / dictionary read: value of the first (unique) binding of `k`. -/
def lookupA {α : Type} (k : String) (m : List (String × α)) : Option α :=
  (m.find? (fun p => p.1 = k)).map (fun p => p.2)

/-- `Map.set` / dictionary write: replace the binding in place if the key is
present, otherwise append (JS maps are insertion ordered). -/
def setA {α : Type} (k : String) (v : α) : List (String × α) → List (String × α)
  | [] => [(k, v)]
  | (k', v') :: rest =>
    if k' = k then (k, v) :: rest else (k', v') :: setA k v rest

theorem lookupA_nil {α : Type} (k : String) : lookupA k ([] : List (String × α)) = none :=
  rfl

theorem lookupA_cons {α : Type} (k k₀ : String) (v₀ : α) (m : List (String × α)) :
    lookupA k ((k₀, v₀) :: m) = if k₀ = k then some v₀ else lookupA k m := by
  by_cases h : k₀ = k <;> simp [lookupA, h]

theorem lookupA_setA_self {α : Type} (k : String) (v : α) (m : List (String × α)) :
    lookupA k (setA k v m) = some v := by
  induction m with
  | nil => simp [lookupA, setA]
  | cons p rest ih =>
    obtain ⟨k', v'⟩ := p
    by_cases h : k' = k
    · simp [lookupA, setA, h]
    · simp [setA, h, lookupA_cons, ih]

theorem lookupA_setA_ne {α : Type} {k k' : String} (v : α) (m : List (String × α))
    (h : k' ≠ k) : lookupA k' (setA k v m) = lookupA k' m := by
  have hk : k ≠ k' := Ne.symm h
  induction m with
  | nil => simp [lookupA, setA, hk]
  | cons p rest ih =>
    obtain ⟨k₀, v₀⟩ := p
    by_cases h0 : k₀ = k
    · subst h0
      simp [setA, lookupA_cons, hk]
    · simp [setA, h0, lookupA_cons, ih]

/-! ### Tag access helpers

TypeScript idiom `tags.filter((t) => t[0] === name).map((t) => t[1])`:
indexing past the end of a tag yields `undefined`, which never equals the
name, so the filter amounts to a `head?` comparison. -/

/-- Values of all tags whose first element is `name`. -/
def tagValues (tags : List (List String)) (name : String) : List String :=
  (tags.filter (fun t => t.head? = some name)).map (fun t => t.getD 1 "")

/-- First tag whose first element is `name`, if any (`tags.find`). -/
def findTag (tags : List (List String)) (name : String) : Option (List String) :=
  tags.find? (fun t => t.head? = some name)

/-! ### String comparison, splitting and joining

Lexicographic comparison by code point, matching the JS `<` relational
operator on the strings this module handles; defined over the character
lists directly so that it evaluates inside the kernel. -/

/-- Character comparison by code point. -/
def charLtB (c d : Char) : Bool := c.toNat < d.toNat

/-- Lexicographic comparison of character lists. -/
def strLtList : List Char → List Char → Bool
  | [], [] => false
  | [], _ :: _ => true
  | _ :: _, [] => false
  | c :: cs, d :: ds =>
    if charLtB c d then true
    else if charLtB d c then false
    else strLtList cs ds

/-- JS `a < b` on strings. -/
def strLtB (a b : String) : Bool := strLtList a.data b.data

/-- JS `a <= b` on strings. -/
def strLeB (a b : String) : Bool := !(strLtB b a)

/-- `xs.join(sep)` for the fixed separator `"+"` used by conversation ids. -/
def joinPlus : List String → String
  | [] => ""
  | [x] => x
  | x :: xs => x ++ "+" ++ joinPlus xs

/-- `s.split("+")` (the separator used by conversation ids). -/
def splitPlusAux : List Char → List Char → List String
  | [], acc => [String.mk acc.reverse]
  | c :: cs, acc =>
    if c = '+' then String.mk acc.reverse :: splitPlusAux cs []
    else splitPlusAux cs (c :: acc)

/-- `conversationId.split("+")`. -/
def splitPlus (s : String) : List String := splitPlusAux s.data []

/-! ### Deduplication and sorting helpers -/

/-- `Array.from(new Set(xs))`: first occurrences, in encounter order. -/
def dedupe (xs : List String) : List String :=
  xs.foldl (fun acc x => if x ∈ acc then acc else acc ++ [x]) []

/-- Insert a string into a lexicographically sorted list. -/
def insertSorted (x : String) : List String → List String
  | [] => [x]
  | y :: ys => if strLeB x y then x :: y :: ys else y :: insertSorted x ys

/-- JS `Array.prototype.sort()` on strings: lexicographic sort. -/
def sortStrings (xs : List String) : List String :=
  xs.foldr insertSorted []

theorem charToNat_injective : Function.Injective Char.toNat :=
  StrictMono.injective fun _ _ h => h

theorem strLtList_asymm : ∀ xs ys, strLtList xs ys = true → strLtList ys xs = false := by
  intro xs
  induction xs with
  | nil =>
    intro ys h
    cases ys with
    | nil => simp [strLtList] at h
    | cons d ds => simp [strLtList]
  | cons c cs ih =>
    intro ys h
    cases ys with
    | nil => simp [strLtList] at h
    | cons d ds =>
      by_cases h1 : charLtB c d = true
      · have h2 : charLtB d c = false := by
          simp [charLtB] at h1 ⊢
          omega
        simp [strLtList, h2, h1]
      · have h1' : charLtB c d = false := by simpa using h1
        by_cases h2 : charLtB d c = true
        · simp [strLtList, h1', h2] at h
        · have h2' : charLtB d c = false := by simpa using h2
          simp [strLtList, h1', h2'] at h
          simp [strLtList, h1', h2', ih ds h]

theorem strLtList_total_eq : ∀ xs ys, strLtList xs ys = false → strLtList ys xs = false → xs = ys := by
  intro xs
  induction xs with
  | nil =>
    intro ys h _
    cases ys with
    | nil => rfl
    | cons d ds => simp [strLtList] at h
  | cons c cs ih =>
    intro ys h h'
    cases ys with
    | nil => simp [strLtList] at h'
    | cons d ds =>
      by_cases h1 : charLtB c d = true
      · simp [strLtList, h1] at h
      · have h1' : charLtB c d = false := by simpa using h1
        by_cases h2 : charLtB d c = true
        · simp [strLtList, h2] at h'
        · have h2' : charLtB d c = false := by simpa using h2
          have hcd : c = d := by
            apply charToNat_injective
            simp [charLtB] at h1' h2'
            omega
          simp [strLtList, h1', h2'] at h h'
          subst hcd
          rw [ih ds h h']

theorem strLtB_asymm {a b : String} (h : strLtB a b = true) : strLtB b a = false :=
  strLtList_asymm a.data b.data h

theorem strLtB_total_eq {a b : String} (h : strLtB a b = false)
    (h' : strLtB b a = false) : a = b := by
  have hd : a.data = b.data := strLtList_total_eq a.data b.data h h'
  cases a
  cases b
  exact congrArg String.mk hd

/-! ### Symbolic NIP-44 cryptography -/

/-- `getPublicKey` from `nostr-tools`, modelled as the identity embedding of
key material (the model does not distinguish a scalar from its point). -/
def getPublicKey (sk : String) : String := sk

/-- A NIP-44 conversation key: the unordered pair of the two parties' key
material, so that the ECDH symmetry holds definitionally. -/
structure ConvKey where
  lo : String
  hi : String
deriving DecidableEq, Repr

/-- `nip44.getConversationKey(privkey, pubkey)`: the unordered pair is
stored with the lexicographically smaller component first. -/
def getConversationKey (sk : String) (pk : String) : ConvKey :=
  if strLtB pk sk then ⟨pk, sk⟩ else ⟨sk, pk⟩

/-- The ECDH identity of the model: deriving the conversation key from
either side's private key and the other side's public key gives the same
key. -/
theorem getConversationKey_comm (a b : String) :
    getConversationKey a b = getConversationKey b a := by
  unfold getConversationKey
  by_cases h1 : strLtB b a = true
  · have h2 : strLtB a b = false := strLtB_asymm h1
    simp [h1, h2]
  · have h1' : strLtB b a = false := by simpa using h1
    by_cases h2 : strLtB a b = true
    · simp [h1', h2]
    · have h2' : strLtB a b = false := by simpa using h2
      have : b = a := strLtB_total_eq h1' h2'
      simp [h1', h2', this]

/-- Symbolic NIP-44 ciphertext over plaintext type `α`: either an honest
encryption under a conversation key, or malformed data. -/
inductive Ciphertext (α : Type) where
  | enc (key : ConvKey) (plain : α)
  | malformed (n : Nat)
deriving DecidableEq, Repr

/-- `nip44.decrypt`: succeeds only on honest ciphertext under the same
conversation key (the TypeScript call throws on failure; callers lift the
`none` into `Except.error`). -/
def nip44Dec {α : Type} (c : Ciphertext α) (k : ConvKey) : Option α :=
  match c with
  | .enc k' p => if k' = k then some p else none
  | .malformed _ => none

/-! ### Events of the gift-wrap protocol (`src/nostr/nip17.ts`) -/

/-- A rumor: an unsigned event with an `id` (`type Rumor = UnsignedEvent & { id }`). -/
structure Rumor where
  id : String
  pubkey : String
  created_at : Nat
  kind : Nat
  tags : List (List String)
  content : String
deriving DecidableEq, Repr

/-- Plaintext carried inside a seal's content: either the JSON serialization
of a rumor, or a payload that is not valid JSON (`JSON.parse` throws). -/
inductive RumorPlain where
  | json (r : Rumor)
  | notJson (n : Nat)
deriving DecidableEq, Repr

/-- A seal: signed kind-13 event whose content encrypts the rumor JSON. -/
structure Seal where
  pubkey : String
  created_at : Nat
  tags : List (List String)
  content : Ciphertext RumorPlain
  sig : String
deriving DecidableEq, Repr

/-- Plaintext carried inside a wrap's content: either the JSON serialization
of a seal event, or a payload that is not valid JSON. -/
inductive SealPlain where
  | json (s : Seal)
  | notJson (n : Nat)
deriving DecidableEq, Repr

/-- A gift wrap: signed kind-1059 event whose content encrypts the seal JSON
and whose `pubkey` is the ephemeral public key. -/
structure Wrap where
  pubkey : String
  created_at : Nat
  tags : List (List String)
  content : Ciphertext SealPlain
  sig : String
deriving DecidableEq, Repr

/-- The delegated signer capability (`signerManager.getSigner()`), holding
its key material and which optional NIP-44 operations it exposes. -/
structure Signer where
  priv : String
  canNip44Enc : Bool
  canNip44Dec : Bool
deriving DecidableEq, Repr

/-! ### Gift wrap construction and unwrapping -/

/-- `createGiftWrapLocal(senderPrivkey, rumor, recipientPubkey)`:
rumor → seal (kind 13, signed by the sender key) → wrap (kind 1059, signed
by a fresh ephemeral key).  The two randomized timestamps and the generated
ephemeral key are parameters `ts1`, `ts2`, `eph`. -/
def createGiftWrapLocal (senderPrivkey : String) (rumor : Rumor)
    (recipientPubkey : String) (ts1 ts2 : Nat) (eph : String) : Wrap :=
  let sealConvKey := getConversationKey senderPrivkey recipientPubkey
  let sealEv : Seal :=
    { pubkey := getPublicKey senderPrivkey
      created_at := ts1
      tags := []
      content := .enc sealConvKey (.json rumor)
      sig := senderPrivkey }
  let wrapConvKey := getConversationKey eph recipientPubkey
  { pubkey := getPublicKey eph
    created_at := ts2
    tags := [["p", recipientPubkey]]
    content := .enc wrapConvKey (.json sealEv)
    sig := eph }

/-- `createGiftWrapForSigner(signer, rumor, recipientPubkey)`: throws when
the signer lacks `nip44Encrypt`; otherwise the signer encrypts the rumor
with its own key and signs the seal, and the wrap layer is as in the local
path. -/
def createGiftWrapForSigner (signer : Signer) (rumor : Rumor)
    (recipientPubkey : String) (ts1 ts2 : Nat) (eph : String) :
    Except String Wrap :=
  if signer.canNip44Enc = false then
    .error "Signer does not support NIP-44 encryption"
  else
    let sealEv : Seal :=
      { pubkey := getPublicKey signer.priv
        created_at := ts1
        tags := []
        content := .enc (getConversationKey signer.priv recipientPubkey) (.json rumor)
        sig := signer.priv }
    let wrapConvKey := getConversationKey eph recipientPubkey
    .ok
      { pubkey := getPublicKey eph
        created_at := ts2
        tags := [["p", recipientPubkey]]
        content := .enc wrapConvKey (.json sealEv)
        sig := eph }

/-- `unwrapGiftWrapLocal(wrap, recipientPrivkey)`: decrypt wrap → seal,
then seal → rumor, and return the rumor.  Note that this path performs no
`seal.pubkey == rumor.pubkey` comparison; decryption or parse failures
throw (`Except.error`). -/
def unwrapGiftWrapLocal (wrap : Wrap) (recipientPrivkey : String) :
    Except String Rumor :=
  let wrapConvKey := getConversationKey recipientPrivkey wrap.pubkey
  match nip44Dec wrap.content wrapConvKey with
  | none => .error "nip44 decrypt failed"
  | some (.notJson _) => .error "JSON parse failed"
  | some (.json sealEv) =>
    let sealConvKey := getConversationKey recipientPrivkey sealEv.pubkey
    match nip44Dec sealEv.content sealConvKey with
    | none => .error "nip44 decrypt failed"
    | some (.notJson _) => .error "JSON parse failed"
    | some (.json rumor) => .ok rumor

/-- The external-signer branch of `unwrapGiftWrap`: capability check, two
`nip44Decrypt` calls through the signer's own key, and the
`seal.pubkey !== rumor.pubkey` comparison, which returns `null` (modelled
`ok none`) rather than throwing. -/
def unwrapGiftWrapSigner (signer : Signer) (wrap : Wrap) :
    Except String (Option Rumor) :=
  if signer.canNip44Dec = false then
    .error "Signer does not support NIP-44 decryption"
  else
    match nip44Dec wrap.content (getConversationKey signer.priv wrap.pubkey) with
    | none => .error "nip44 decrypt failed"
    | some (.notJson _) => .error "JSON parse failed"
    | some (.json sealEv) =>
      match nip44Dec sealEv.content (getConversationKey signer.priv sealEv.pubkey) with
      | none => .error "nip44 decrypt failed"
      | some (.notJson _) => .error "JSON parse failed"
      | some (.json rumor) =>
        if sealEv.pubkey ≠ rumor.pubkey then .ok none else .ok (some rumor)

/-- `unwrapGiftWrap(wrap, privateKey?)`: chooses the local path when a raw
private key is supplied, otherwise the external-signer path; the whole body
sits in a `try`/`catch` that converts any exception into `null`. -/
def unwrapGiftWrap (signer : Signer) (wrap : Wrap)
    (privateKey : Option String) : Option Rumor :=
  match privateKey with
  | some priv =>
    match unwrapGiftWrapLocal wrap priv with
    | .ok rumor => some rumor
    | .error _ => none
  | none =>
    match unwrapGiftWrapSigner signer wrap with
    | .ok res => res
    | .error _ => none

/-! ### Rumor construction and conversation ids (`src/nostr/nip17.ts`) -/

/-- `computeRumorId(rumor)`: SHA-256 of the canonical serialization
`[0, pubkey, created_at, kind, tags, content]`, modelled as the canonical
serialization itself (deterministic and injective on the hashed fields). -/
def computeRumorId (pubkey : String) (created_at : Nat) (kind : Nat)
    (tags : List (List String)) (content : String) : String :=
  "0|" ++ pubkey ++ "|" ++ toString created_at ++ "|" ++ toString kind ++ "|"
    ++ toString tags ++ "|" ++ content

/-- `createRumor(senderPubkey, recipientPubkey, content, replyToId?, kind, extraTags)`:
a `p`-tag for the recipient, an optional reply `e`-tag, then the extra tags;
`created_at` is the current wall clock, passed as `now`. -/
def createRumor (senderPubkey recipientPubkey content : String)
    (replyToId : Option String) (kind : Nat) (extraTags : List (List String))
    (now : Nat) : Rumor :=
  let tags : List (List String) :=
    [["p", recipientPubkey]]
      ++ (match replyToId with
          | some rid => [["e", rid, "", "reply"]]
          | none => [])
      ++ extraTags
  { id := computeRumorId senderPubkey now kind tags content
    pubkey := senderPubkey
    created_at := now
    kind := kind
    tags := tags
    content := content }

/-- `getConversationId(myPubkey, pTags)`: deduplicated participants, sorted,
joined with `"+"`. -/
def getConversationId (myPubkey : String) (pTags : List String) : String :=
  joinPlus (sortStrings (dedupe (myPubkey :: pTags)))

/-! ### Inbox relay resolver (`src/nostr/nip17.ts`) -/

/-- A persisted relay-list cache record (`interface CachedRelays`). -/
structure CachedRelays where
  relays : List String
  created_at : Nat
deriving DecidableEq, Repr

/-- The resolver's two cache tiers: the session `Map` and the
`localStorage` namespace `inbox_relays_`. -/
structure RelayCacheState where
  mem : List (String × List String)
  store : List (String × CachedRelays)
deriving DecidableEq, Repr

/-- A kind-10050 relay-list event as fetched from the network. -/
structure RelayListEvent where
  tags : List (List String)
  created_at : Nat
deriving DecidableEq, Repr

/-- The tail of `fetchRelaysFromNetwork` reached when the network gave
nothing newer: serve the in-memory cache, or fall back to the single
default relay and cache it. -/
def relayFallback (pubkey : String) (persist : Bool) (st : RelayCacheState) :
    List String × RelayCacheState :=
  match lookupA pubkey st.mem with
  | some rs => (rs, st)
  | none =>
    let fallback := ["wss://relay.damus.io/"]
    (fallback,
      { mem := setA pubkey fallback st.mem
        store := if persist then setA pubkey ⟨fallback, 0⟩ st.store else st.store })

/-- `fetchRelaysFromNetwork(pubkey, knownAt, persist)`.  The awaited
`fetchOne` result is the parameter `netResp`; `none` covers both "no event
found" and a caught network error. -/
def fetchRelaysFromNetwork (pubkey : String) (knownAt : Nat) (persist : Bool)
    (netResp : Option RelayListEvent) (st : RelayCacheState) :
    List String × RelayCacheState :=
  match netResp with
  | some ev =>
    let relays := tagValues ev.tags "relay"
    if relays ≠ [] ∧ ev.created_at > knownAt then
      (relays,
        { mem := setA pubkey relays st.mem
          store := if persist then setA pubkey ⟨relays, ev.created_at⟩ st.store
                   else st.store })
    else relayFallback pubkey persist st
  | none => relayFallback pubkey persist st

/-- `fetchInboxRelays(pubkey, persist)`: in-memory hit, else (persist only)
serve the localStorage value while the fire-and-forget background
revalidation also runs against the state, else cold-start network fetch. -/
def fetchInboxRelays (pubkey : String) (persist : Bool)
    (netResp : Option RelayListEvent) (st : RelayCacheState) :
    List String × RelayCacheState :=
  match lookupA pubkey st.mem with
  | some rs => (rs, st)
  | none =>
    match (if persist then lookupA pubkey st.store else none) with
    | some stored =>
      let st1 : RelayCacheState := { st with mem := setA pubkey stored.relays st.mem }
      let st2 := (fetchRelaysFromNetwork pubkey stored.created_at persist netResp st1).2
      (stored.relays, st2)
    | none => fetchRelaysFromNetwork pubkey 0 persist netResp st

/-! ### Outbound send paths (`src/nostr/nip17.ts`) -/

/-- A publish operation handed to the pool: one wrap event aimed at one
relay URL.  `pool.publish(relays, event)` yields one of these per relay,
order-correspondent with the relay list; the pair also stands for the
completion promise the pool returns. -/
def poolPublish (relays : List String) (event : Wrap) : List (Wrap × String) :=
  relays.map (fun r => (event, r))

/-- One tracked per-relay publish (`interface RelayPublish`): the relay URL
and the promise retained for it. -/
structure RelayPub where
  relay : String
  promise : Wrap × String
deriving DecidableEq, Repr

/-- The publish loop at the end of `wrapAndSendDM`: publish every wrap to
its relay list, and keep in the relay map only the first promise seen for
each relay URL. -/
def dedupedPublishes (wraps : List (Wrap × List String)) : List RelayPub :=
  let relayMap := wraps.foldl
    (fun m (w : Wrap × List String) =>
      w.2.foldl
        (fun m' r =>
          if (lookupA r m').isSome then m'
          else setA r (RelayPub.mk r (w.1, r)) m')
        m)
    []
  relayMap.map (fun p => p.2)

/-- All publish operations issued by the loop: `pool.publish` is called once
per wrap with that wrap's full relay list. -/
def issuedPublishOps (wraps : List (Wrap × List String)) : List (Wrap × String) :=
  wraps.flatMap (fun w => poolPublish w.2 w.1)

/-- The result of `wrapAndSendDM` (`interface SendResult`). -/
structure SendResult where
  rumor : Rumor
  publishes : List RelayPub
  retryWraps : List (Wrap × List String)
deriving DecidableEq, Repr

/-- Randomness and clock inputs consumed by one `wrapAndSendDM` /
`wrapAndSendReaction` call: the wall clock for the rumor, the randomized
seal/wrap timestamps, and the two generated ephemeral keys. -/
structure SendEnv where
  now : Nat
  ts1 : Nat
  ts2 : Nat
  ts3 : Nat
  ts4 : Nat
  eph1 : String
  eph2 : String
deriving DecidableEq, Repr

/-- `wrapAndSendDM(recipientPubkey, content, privateKey?, replyToId?)`.
The awaited inbox-relay lookups are the parameters `recipientInbox` and
`senderInbox`, and `defaultRelays` is the imported relay constant.  Errors
thrown before any wrap exists are `Except.error`; on success the result
also carries every publish operation issued. -/
def wrapAndSendDM (signer : Signer) (recipientPubkey content : String)
    (privateKey : Option String) (replyToId : Option String)
    (recipientInbox senderInbox defaultRelays : List String) (env : SendEnv) :
    Except String (SendResult × List (Wrap × String)) :=
  let senderPubkey := getPublicKey signer.priv
  let rumor := createRumor senderPubkey recipientPubkey content replyToId 14 [] env.now
  let recipientRelays := dedupe (recipientInbox ++ defaultRelays)
  let senderRelays := dedupe (senderInbox ++ defaultRelays)
  match privateKey with
  | some pk =>
    let wrapForRecipient := createGiftWrapLocal pk rumor recipientPubkey env.ts1 env.ts2 env.eph1
    let wrapForSender := createGiftWrapLocal pk rumor senderPubkey env.ts3 env.ts4 env.eph2
    let wraps := [(wrapForRecipient, recipientRelays), (wrapForSender, senderRelays)]
    .ok (⟨rumor, dedupedPublishes wraps, wraps⟩, issuedPublishOps wraps)
  | none =>
    if signer.canNip44Enc = false then
      .error "Your signer does not support NIP-44 encryption, which is required for DMs."
    else
      match createGiftWrapForSigner signer rumor recipientPubkey env.ts1 env.ts2 env.eph1,
            createGiftWrapForSigner signer rumor senderPubkey env.ts3 env.ts4 env.eph2 with
      | .ok recipientWrap, .ok senderWrap =>
        let wraps := [(recipientWrap, recipientRelays), (senderWrap, senderRelays)]
        .ok (⟨rumor, dedupedPublishes wraps, wraps⟩, issuedPublishOps wraps)
      | .error e, _ => .error e
      | _, .error e => .error e

/-- `wrapAndSendReaction(recipientPubkey, emoji, targetMessageId, privateKey?)`:
builds a kind-7 rumor with an `e`-tag for the target, then wraps and
publishes for the recipient and the sender (publishes are awaited with
`allSettled`, so the success value carries all issued operations). -/
def wrapAndSendReaction (signer : Signer) (recipientPubkey emoji targetMessageId : String)
    (privateKey : Option String)
    (recipientInbox senderInbox defaultRelays : List String) (env : SendEnv) :
    Except String (Rumor × List (Wrap × String)) :=
  let senderPubkey := getPublicKey signer.priv
  let rumor := createRumor senderPubkey recipientPubkey emoji none 7
    [["e", targetMessageId]] env.now
  let recipientRelays := dedupe (recipientInbox ++ defaultRelays)
  let senderRelays := dedupe (senderInbox ++ defaultRelays)
  match privateKey with
  | some pk =>
    let wrapForRecipient := createGiftWrapLocal pk rumor recipientPubkey env.ts1 env.ts2 env.eph1
    let wrapForSender := createGiftWrapLocal pk rumor senderPubkey env.ts3 env.ts4 env.eph2
    .ok (rumor, poolPublish recipientRelays wrapForRecipient
                  ++ poolPublish senderRelays wrapForSender)
  | none =>
    if signer.canNip44Enc = false then
      .error "Your signer does not support NIP-44 encryption, which is required for DM reactions."
    else
      match createGiftWrapForSigner signer rumor recipientPubkey env.ts1 env.ts2 env.eph1,
            createGiftWrapForSigner signer rumor senderPubkey env.ts3 env.ts4 env.eph2 with
      | .ok recipientWrap, .ok senderWrap =>
        .ok (rumor, poolPublish recipientRelays recipientWrap
                      ++ poolPublish senderRelays senderWrap)
      | .error e, _ => .error e
      | _, .error e => .error e

/-! ### Conversation reconciliation engine (DM context provider) -/

/-- A decrypted DM message as held in conversation state (`interface DMMessage`). -/
structure DMMessage where
  id : String
  wrapId : String
  pubkey : String
  content : String
  created_at : Nat
  tags : List (List String)
deriving DecidableEq, Repr

/-- One reaction on a message (`interface DMReaction`); the optional tag set
carries custom-emoji tags, `[]` when absent. -/
structure DMReaction where
  emoji : String
  pubkey : String
  tags : List (List String)
deriving DecidableEq, Repr

/-- Per-conversation state (`interface Conversation`); the reaction `Map` is
an association list from message id to its reactions. -/
structure Conversation where
  id : String
  participants : List String
  messages : List DMMessage
  lastMessageAt : Nat
  unreadCount : Nat
  reactions : List (String × List DMReaction)
deriving DecidableEq, Repr

/-- The provider's mutable state: the `seenRumorIds` ref, the conversation
`Map`, and the three `localStorage` namespaces (`dm_cache_`,
`dm_lastseen_`, `dm_reactions_`). -/
structure DMState where
  seenRumorIds : List String
  conversations : List (String × Conversation)
  msgCache : List (String × DMMessage)
  lastSeenStore : List (String × Nat)
  reactionStore : List (String × List (String × List DMReaction))
deriving DecidableEq, Repr

/-- `getLastSeen(conversationId)`: stored value, defaulting to 0. -/
def getLastSeen (conversationId : String) (st : DMState) : Nat :=
  (lookupA conversationId st.lastSeenStore).getD 0

/-- Stable insertion of a message into a list sorted by `created_at`
ascending (the JS comparator `a.created_at - b.created_at`): the new
element goes after existing elements with an equal key. -/
def insertByTime (m : DMMessage) : List DMMessage → List DMMessage
  | [] => [m]
  | y :: ys =>
    if y.created_at ≤ m.created_at then y :: insertByTime m ys
    else m :: y :: ys

/-- Stable sort by `created_at` (JS `Array.prototype.sort` is stable). -/
def sortByTime (xs : List DMMessage) : List DMMessage :=
  xs.foldl (fun acc m => insertByTime m acc) []

/-- `addReactionToConversation(rumor, myPubkey)`: resolve the conversation
and target message from the rumor's tags, then record the reaction in the
persisted reaction cache and in live conversation state, deduplicating by
(pubkey, emoji) in both places.  A missing or empty target id (falsy in
TypeScript) aborts. -/
def addReactionToConversation (rumor : Rumor) (st : DMState) : DMState :=
  let pTags := tagValues rumor.tags "p"
  let conversationId := getConversationId rumor.pubkey pTags
  match (findTag rumor.tags "e").bind (fun t => t[1]?) with
  | none => st
  | some targetMessageId =>
    if targetMessageId = "" then st
    else
      let reaction : DMReaction :=
        { emoji := rumor.content
          pubkey := rumor.pubkey
          tags := rumor.tags.filter (fun t => t.head? = some "emoji") }
      let convReacts := (lookupA conversationId st.reactionStore).getD []
      let targetList := (lookupA targetMessageId convReacts).getD []
      let st1 :=
        if targetList.any (fun r => r.pubkey = reaction.pubkey ∧ r.emoji = reaction.emoji) then st
        else
          { st with
              reactionStore :=
                setA conversationId
                  (setA targetMessageId (targetList ++ [reaction]) convReacts)
                  st.reactionStore }
      match lookupA conversationId st1.conversations with
      | none => st1
      | some existing =>
        let existingReactions := (lookupA targetMessageId existing.reactions).getD []
        if existingReactions.any (fun r => r.pubkey = reaction.pubkey ∧ r.emoji = reaction.emoji) then st1
        else
          { st1 with
              conversations :=
                setA conversationId
                  { existing with
                      reactions :=
                        setA targetMessageId (existingReactions ++ [reaction])
                          existing.reactions }
                  st1.conversations }

/-- `addMessage(rumor, wrapId, myPubkey)`: dedup by rumor id against the
seen-set, route kind-7 rumors to the reaction handler, otherwise cache the
decrypted message and fold it into the conversation map with sorting,
last-activity and unread accounting. -/
def addMessage (rumor : Rumor) (wrapId myPubkey : String) (st : DMState) : DMState :=
  if rumor.id ∈ st.seenRumorIds then st
  else
    let st := { st with seenRumorIds := rumor.id :: st.seenRumorIds }
    if rumor.kind = 7 then addReactionToConversation rumor st
    else
      let pTags := tagValues rumor.tags "p"
      let conversationId := getConversationId rumor.pubkey pTags
      let participants := splitPlus conversationId
      let msg : DMMessage :=
        { id := rumor.id
          wrapId := wrapId
          pubkey := rumor.pubkey
          content := rumor.content
          created_at := rumor.created_at
          tags := rumor.tags }
      let st := { st with msgCache := setA wrapId msg st.msgCache }
      let cachedReactions := (lookupA conversationId st.reactionStore).getD []
      let lastSeen := getLastSeen conversationId st
      match lookupA conversationId st.conversations with
      | some existing =>
        if existing.messages.any (fun m => m.id = rumor.id) then st
        else
          let updatedMessages := sortByTime (existing.messages ++ [msg])
          let isUnread := rumor.pubkey ≠ myPubkey ∧ rumor.created_at > lastSeen
          { st with
              conversations :=
                setA conversationId
                  { existing with
                      messages := updatedMessages
                      lastMessageAt := max existing.lastMessageAt rumor.created_at
                      unreadCount := existing.unreadCount + (if isUnread then 1 else 0) }
                  st.conversations }
      | none =>
        let isUnread := rumor.pubkey ≠ myPubkey ∧ rumor.created_at > lastSeen
        { st with
            conversations :=
              setA conversationId
                { id := conversationId
                  participants := participants
                  messages := [msg]
                  lastMessageAt := rumor.created_at
                  unreadCount := if isUnread then 1 else 0
                  reactions := cachedReactions }
                st.conversations }

/-- `markAsRead(conversationId)`: persist "now" as the conversation's
last-seen timestamp and zero its unread counter. -/
def markAsRead (conversationId : String) (now : Nat) (st : DMState) : DMState :=
  let st := { st with lastSeenStore := setA conversationId now st.lastSeenStore }
  match lookupA conversationId st.conversations with
  | some conv =>
    if conv.unreadCount > 0 then
      { st with
          conversations :=
            setA conversationId { conv with unreadCount := 0 } st.conversations }
    else st
  | none => st

/-- `sendMessage(recipientPubkey, content, replyToId?)` in the provider:
run `wrapAndSendDM` with the logged-in user's key material; on success,
optimistically fold the rumor into conversation state under a synthetic
`local_`-prefixed cache key; a thrown error leaves state untouched. -/
def sendMessage (signer : Signer) (userPrivateKey : Option String)
    (recipientPubkey content : String) (replyToId : Option String)
    (recipientInbox senderInbox defaultRelays : List String) (env : SendEnv)
    (st : DMState) :
    DMState × Except String (SendResult × List (Wrap × String)) :=
  match wrapAndSendDM signer recipientPubkey content userPrivateKey replyToId
      recipientInbox senderInbox defaultRelays env with
  | .error e => (st, .error e)
  | .ok res =>
    (addMessage res.1.rumor ("local_" ++ res.1.rumor.id) (getPublicKey signer.priv) st,
      .ok res)

/-- `sendReaction(recipientPubkey, emoji, messageId)` in the provider:
run `wrapAndSendReaction`; on success, optimistically fold the reaction
rumor into state; a thrown error leaves state untouched. -/
def sendReaction (signer : Signer) (userPrivateKey : Option String)
    (recipientPubkey emoji messageId : String)
    (recipientInbox senderInbox defaultRelays : List String) (env : SendEnv)
    (st : DMState) :
    DMState × Except String (Rumor × List (Wrap × String)) :=
  match wrapAndSendReaction signer recipientPubkey emoji messageId userPrivateKey
      recipientInbox senderInbox defaultRelays env with
  | .error e => (st, .error e)
  | .ok res =>
    (addMessage res.1 ("local_reaction_" ++ res.1.id) (getPublicKey signer.priv) st,
      .ok res)

/-! ### Per-relay delivery tracking (chat view) -/

/-- Per-relay delivery status (`type RelayStatus`). -/
inductive RelayStatus where
  | pending
  | sent
  | failed
  | timedOut
deriving DecidableEq, Repr

/-- One rumor's tracking record (`interface MsgSendStatus`): per-relay
statuses and the originally signed wraps kept for retry. -/
structure MsgSendStatus where
  relays : List (String × RelayStatus)
  retryWraps : List (Wrap × List String)
deriving DecidableEq, Repr

/-- The initial status record written by `trackRelays`: every tracked
publish's relay is entered as `pending` before any race settles. -/
def trackRelaysInitial (publishes : List RelayPub) : List (String × RelayStatus) :=
  publishes.foldl (fun m p => setA p.relay RelayStatus.pending m) []

/-- `handleRetry(rumorId)`: reset the record's relays to `pending`, then
republish every retained wrap to its full original relay list; a timeout
race (and hence a status update) is attached only for relays already
present in the record.  Returns the new status map, the publish operations
issued, and the relays for which a race was attached. -/
def handleRetry (rumorId : String)
    (sendStatuses : List (String × MsgSendStatus)) :
    List (String × MsgSendStatus) × List (Wrap × String) × List String :=
  match lookupA rumorId sendStatuses with
  | none => (sendStatuses, [], [])
  | some status =>
    let resetRelays := status.relays.map (fun p => (p.1, RelayStatus.pending))
    let sendStatuses' :=
      setA rumorId { status with relays := resetRelays } sendStatuses
    let trackedRelays := status.relays.map (fun p => p.1)
    let published := status.retryWraps.flatMap (fun w => poolPublish w.2 w.1)
    let raced := status.retryWraps.flatMap
      (fun w => w.2.filter (fun r => r ∈ trackedRelays))
    (sendStatuses', published, raced)

/-! ## Supporting lemmas for the gift-wrap protocol -/

/-- With the encryption capability present, the delegated-signer wrap
construction produces exactly the wrap the local path would produce from
the signer's key. -/
theorem createGiftWrapForSigner_ok (signer : Signer) (rumor : Rumor)
    (recipientPubkey : String) (ts1 ts2 : Nat) (eph : String)
    (hc : signer.canNip44Enc = true) :
    createGiftWrapForSigner signer rumor recipientPubkey ts1 ts2 eph =
      .ok (createGiftWrapLocal signer.priv rumor recipientPubkey ts1 ts2 eph) := by
  simp [createGiftWrapForSigner, createGiftWrapLocal, hc]

/-! ## Claim theorems -/

/-- C2: round trip.  A rumor authored by the wrapping key (`rumor.pubkey`
is the sender's public key, as `createRumor` guarantees) is recovered
exactly — every field — when the wrap produced for a recipient is unwrapped
with the recipient's private key, or through the recipient's signer, for
wraps produced by either signing backend. -/
theorem unwrap_wrap_roundtrip (sk rk : String) (rumor : Rumor) (ts1 ts2 : Nat)
    (eph : String) (s0 : Signer) (cE cD : Bool)
    (hpk : rumor.pubkey = getPublicKey sk) :
    (unwrapGiftWrap s0 (createGiftWrapLocal sk rumor (getPublicKey rk) ts1 ts2 eph)
        (some rk) = some rumor)
    ∧ (unwrapGiftWrap ⟨rk, cE, true⟩
        (createGiftWrapLocal sk rumor (getPublicKey rk) ts1 ts2 eph) none = some rumor)
    ∧ (∀ w, createGiftWrapForSigner ⟨sk, true, cD⟩ rumor (getPublicKey rk) ts1 ts2 eph = .ok w →
        unwrapGiftWrap s0 w (some rk) = some rumor
        ∧ unwrapGiftWrap ⟨rk, cE, true⟩ w none = some rumor) := by
  have h1 : getConversationKey rk eph = getConversationKey eph rk :=
    getConversationKey_comm rk eph
  have h2 : getConversationKey rk sk = getConversationKey sk rk :=
    getConversationKey_comm rk sk
  refine ⟨?_, ?_, ?_⟩
  · simp [createGiftWrapLocal, unwrapGiftWrap, unwrapGiftWrapLocal, getPublicKey,
      nip44Dec, h1, h2]
  · simp [createGiftWrapLocal, unwrapGiftWrap, unwrapGiftWrapSigner, getPublicKey,
      nip44Dec, h1, h2, hpk]
  · intro w hw
    rw [createGiftWrapForSigner_ok _ _ _ _ _ _ rfl] at hw
    cases hw
    constructor
    · simp [createGiftWrapLocal, unwrapGiftWrap, unwrapGiftWrapLocal, getPublicKey,
        nip44Dec, h1, h2]
    · simp [createGiftWrapLocal, unwrapGiftWrap, unwrapGiftWrapSigner, getPublicKey,
        nip44Dec, h1, h2, hpk]

/-- C2 witness: the round trip instantiated at a concrete sender `"01"`,
recipient `"02"` and rumor. -/
theorem unwrap_wrap_roundtrip_witness :
    (unwrapGiftWrap ⟨"02", true, true⟩
        (createGiftWrapLocal "01"
          { id := "r", pubkey := "01", created_at := 5, kind := 14,
            tags := [["p", "02"]], content := "hi" }
          (getPublicKey "02") 11 12 "04")
        (some "02") =
      some { id := "r", pubkey := "01", created_at := 5, kind := 14,
             tags := [["p", "02"]], content := "hi" })
    ∧ (unwrapGiftWrap ⟨"02", true, true⟩
        (createGiftWrapLocal "01"
          { id := "r", pubkey := "01", created_at := 5, kind := 14,
            tags := [["p", "02"]], content := "hi" }
          (getPublicKey "02") 11 12 "04") none =
      some { id := "r", pubkey := "01", created_at := 5, kind := 14,
             tags := [["p", "02"]], content := "hi" }) := by
  have h := unwrap_wrap_roundtrip "01" "02"
    { id := "r", pubkey := "01", created_at := 5, kind := 14,
      tags := [["p", "02"]], content := "hi" }
    11 12 "04" ⟨"02", true, true⟩ true true rfl
  exact ⟨h.1, h.2.1⟩

/-- C1 (code evaluation at the failing input): a wrap sealed by key `"01"`
embedding a rumor that claims author `"02"` — the local-private-key path of
`unwrapGiftWrap` returns the mismatched rumor instead of nothing, while the
external-signer path on the same wrap returns nothing. -/
theorem unwrap_local_no_seal_author_check :
    (unwrapGiftWrap ⟨"03", true, true⟩
        (createGiftWrapLocal "01"
          { id := "r", pubkey := "02", created_at := 5, kind := 14,
            tags := [["p", "03"]], content := "hi" }
          "03" 11 12 "04")
        (some "03") =
      some { id := "r", pubkey := "02", created_at := 5, kind := 14,
             tags := [["p", "03"]], content := "hi" })
    ∧ (unwrapGiftWrap ⟨"03", true, true⟩
        (createGiftWrapLocal "01"
          { id := "r", pubkey := "02", created_at := 5, kind := 14,
            tags := [["p", "03"]], content := "hi" }
          "03" 11 12 "04") none = none) := by
  constructor
  · decide
  · decide

/-- C5: `unwrapGiftWrap` never surfaces an exception — any failure inside
either path (including the named modes: malformed ciphertext, wrong key,
payload that is not valid JSON) yields `none`. -/
theorem unwrapGiftWrap_failure_yields_none (s0 : Signer) (w : Wrap) (priv : String) :
    ((∃ e, unwrapGiftWrapLocal w priv = .error e) →
      unwrapGiftWrap s0 w (some priv) = none)
    ∧ ((∃ e, unwrapGiftWrapSigner s0 w = .error e) →
      unwrapGiftWrap s0 w none = none)
    ∧ (∀ n, w.content = .malformed n →
      unwrapGiftWrap s0 w (some priv) = none ∧ unwrapGiftWrap s0 w none = none)
    ∧ (∀ k pl, w.content = .enc k pl → k ≠ getConversationKey priv w.pubkey →
      unwrapGiftWrap s0 w (some priv) = none)
    ∧ (∀ n, w.content = .enc (getConversationKey priv w.pubkey) (.notJson n) →
      unwrapGiftWrap s0 w (some priv) = none) := by
  refine ⟨?_, ?_, ?_, ?_, ?_⟩
  · rintro ⟨e, he⟩
    simp [unwrapGiftWrap, he]
  · rintro ⟨e, he⟩
    simp [unwrapGiftWrap, he]
  · intro n hn
    constructor
    · simp [unwrapGiftWrap, unwrapGiftWrapLocal, nip44Dec, hn]
    · by_cases hc : s0.canNip44Dec = true
      · simp [unwrapGiftWrap, unwrapGiftWrapSigner, nip44Dec, hn, hc]
      · have hc' : s0.canNip44Dec = false := by simpa using hc
        simp [unwrapGiftWrap, unwrapGiftWrapSigner, hc']
  · intro k pl hk hne
    simp [unwrapGiftWrap, unwrapGiftWrapLocal, nip44Dec, hk, hne]
  · intro n hn
    simp [unwrapGiftWrap, unwrapGiftWrapLocal, nip44Dec, hn]

/-- C5 witness: the failure modes evaluated at concrete wraps. -/
theorem unwrapGiftWrap_failure_yields_none_witness :
    unwrapGiftWrap ⟨"02", true, true⟩
      ⟨"04", 7, [["p", "02"]], .malformed 0, "04"⟩ (some "02") = none := by
  exact ((unwrapGiftWrap_failure_yields_none ⟨"02", true, true⟩
    ⟨"04", 7, [["p", "02"]], .malformed 0, "04"⟩ "02").2.2.1 0 rfl).1

/-! ## Relay resolver: non-empty cache invariant (C10) -/

/-- Case split for reads after a write. -/
theorem lookupA_setA_cases {α : Type} {k k' : String} {v r : α}
    {m : List (String × α)} (h : lookupA k' (setA k v m) = some r) :
    (k' = k ∧ r = v) ∨ lookupA k' m = some r := by
  by_cases hk : k' = k
  · subst hk
    rw [lookupA_setA_self] at h
    exact Or.inl ⟨rfl, (Option.some_injective _ h).symm⟩
  · rw [lookupA_setA_ne _ _ hk] at h
    exact Or.inr h

/-- Every entry either cache tier of the resolver can hold is a non-empty
relay list: this is what each population site of the module writes. -/
def RelayCacheInv (st : RelayCacheState) : Prop :=
  (∀ p rs, lookupA p st.mem = some rs → rs ≠ [])
  ∧ (∀ p c, lookupA p st.store = some c → c.relays ≠ [])

theorem relayFallback_spec (p : String) (persist : Bool) (st : RelayCacheState)
    (hinv : RelayCacheInv st) :
    (relayFallback p persist st).1 ≠ []
    ∧ RelayCacheInv (relayFallback p persist st).2 := by
  obtain ⟨hmem, hstore⟩ := hinv
  unfold relayFallback
  cases hm : lookupA p st.mem with
  | some rs =>
    exact ⟨hmem p rs hm, hmem, hstore⟩
  | none =>
    refine ⟨by simp, ?_, ?_⟩
    · intro q rs hq
      rcases lookupA_setA_cases hq with ⟨_, hv⟩ | hold
      · subst hv
        simp
      · exact hmem q rs hold
    · intro q c hq
      by_cases hp : persist = true
      · simp only [hp, if_true] at hq
        rcases lookupA_setA_cases hq with ⟨_, hv⟩ | hold
        · subst hv
          simp
        · exact hstore q c hold
      · have hp' : persist = false := by simpa using hp
        simp only [hp'] at hq
        exact hstore q c hq

theorem fetchRelaysFromNetwork_some (p : String) (knownAt : Nat) (persist : Bool)
    (ev : RelayListEvent) (st : RelayCacheState) :
    fetchRelaysFromNetwork p knownAt persist (some ev) st =
      (if tagValues ev.tags "relay" ≠ [] ∧ ev.created_at > knownAt then
        (tagValues ev.tags "relay",
          { mem := setA p (tagValues ev.tags "relay") st.mem
            store := if persist then
                setA p ⟨tagValues ev.tags "relay", ev.created_at⟩ st.store
              else st.store })
      else relayFallback p persist st) := rfl

theorem fetchRelaysFromNetwork_spec (p : String) (knownAt : Nat) (persist : Bool)
    (net : Option RelayListEvent) (st : RelayCacheState) (hinv : RelayCacheInv st) :
    (fetchRelaysFromNetwork p knownAt persist net st).1 ≠ []
    ∧ RelayCacheInv (fetchRelaysFromNetwork p knownAt persist net st).2 := by
  obtain ⟨hmem, hstore⟩ := hinv
  cases net with
  | none => exact relayFallback_spec p persist st ⟨hmem, hstore⟩
  | some ev =>
    rw [fetchRelaysFromNetwork_some]
    by_cases hcond : tagValues ev.tags "relay" ≠ [] ∧ ev.created_at > knownAt
    · rw [if_pos hcond]
      refine ⟨hcond.1, ?_, ?_⟩
      · intro q rs hq
        rcases lookupA_setA_cases hq with ⟨_, hv⟩ | hold
        · subst hv
          exact hcond.1
        · exact hmem q rs hold
      · intro q c hq
        by_cases hp : persist = true
        · simp only [hp, if_true] at hq
          rcases lookupA_setA_cases hq with ⟨_, hv⟩ | hold
          · subst hv
            exact hcond.1
          · exact hstore q c hold
        · have hp' : persist = false := by simpa using hp
          simp only [hp'] at hq
          exact hstore q c hq
    · rw [if_neg hcond]
      exact relayFallback_spec p persist st ⟨hmem, hstore⟩

/-- C10: under the precondition that both cache tiers hold only entries
this module writes (non-empty lists), `fetchInboxRelays` returns a
non-empty relay list, and every cache population preserves the
invariant. -/
theorem fetchInboxRelays_nonempty (p : String) (persist : Bool)
    (net : Option RelayListEvent) (st : RelayCacheState)
    (hinv : RelayCacheInv st) :
    (fetchInboxRelays p persist net st).1 ≠ []
    ∧ RelayCacheInv (fetchInboxRelays p persist net st).2 := by
  obtain ⟨hmem, hstore⟩ := hinv
  unfold fetchInboxRelays
  cases hm : lookupA p st.mem with
  | some rs => exact ⟨hmem p rs hm, hmem, hstore⟩
  | none =>
    cases hs : (if persist then lookupA p st.store else none) with
    | some stored =>
      have hstored : stored.relays ≠ [] := by
        by_cases hp : persist = true
        · simp only [hp, if_true] at hs
          exact hstore p stored hs
        · have hp' : persist = false := by simpa using hp
          simp [hp'] at hs
      have hinv1 : RelayCacheInv { st with mem := setA p stored.relays st.mem } := by
        refine ⟨?_, hstore⟩
        intro q rs hq
        rcases lookupA_setA_cases hq with ⟨_, hv⟩ | hold
        · subst hv
          exact hstored
        · exact hmem q rs hold
      exact ⟨hstored,
        (fetchRelaysFromNetwork_spec p stored.created_at persist net _ hinv1).2⟩
    | none => exact fetchRelaysFromNetwork_spec p 0 persist net st ⟨hmem, hstore⟩

/-- C10 witness: a cold-start lookup on empty caches returns the (single,
non-empty) default fallback and leaves valid caches. -/
theorem fetchInboxRelays_nonempty_witness :
    (fetchInboxRelays "01" false none ⟨[], []⟩).1 ≠ []
    ∧ RelayCacheInv (fetchInboxRelays "01" false none ⟨[], []⟩).2 :=
  fetchInboxRelays_nonempty "01" false none ⟨[], []⟩
    ⟨by intro p rs h; simp [lookupA] at h, by intro p c h; simp [lookupA] at h⟩

/-! ## Capability errors on the delegated-signer path (C9) -/

/-- C9: with no raw private key and a signer lacking `nip44Encrypt`, both
send operations fail immediately with the capability error — the error
value carries no wraps and no publish operations — and the provider's
`sendMessage` / `sendReaction` leave conversation state untouched. -/
theorem capability_error_blocks_send (signer : Signer)
    (recipientPubkey content emoji targetMessageId : String)
    (replyToId : Option String) (ri si dr : List String) (env : SendEnv)
    (st : DMState) (hcap : signer.canNip44Enc = false) :
    wrapAndSendDM signer recipientPubkey content none replyToId ri si dr env =
      .error "Your signer does not support NIP-44 encryption, which is required for DMs."
    ∧ wrapAndSendReaction signer recipientPubkey emoji targetMessageId none ri si dr env =
      .error "Your signer does not support NIP-44 encryption, which is required for DM reactions."
    ∧ sendMessage signer none recipientPubkey content replyToId ri si dr env st =
      (st, .error "Your signer does not support NIP-44 encryption, which is required for DMs.")
    ∧ sendReaction signer none recipientPubkey emoji targetMessageId ri si dr env st =
      (st, .error "Your signer does not support NIP-44 encryption, which is required for DM reactions.") := by
  have hdm : wrapAndSendDM signer recipientPubkey content none replyToId ri si dr env =
      .error "Your signer does not support NIP-44 encryption, which is required for DMs." := by
    simp [wrapAndSendDM, hcap]
  have hre : wrapAndSendReaction signer recipientPubkey emoji targetMessageId none ri si dr env =
      .error "Your signer does not support NIP-44 encryption, which is required for DM reactions." := by
    simp [wrapAndSendReaction, hcap]
  refine ⟨hdm, hre, ?_, ?_⟩
  · simp [sendMessage, hdm]
  · simp [sendReaction, hre]

/-- C9 witness: the capability failure at a concrete signer and state. -/
theorem capability_error_blocks_send_witness :
    sendMessage ⟨"01", false, true⟩ none "02" "hi" none ["R"] ["R"] []
        ⟨1, 2, 3, 4, 5, "e1", "e2"⟩ ⟨[], [], [], [], []⟩ =
      (⟨[], [], [], [], []⟩,
        .error "Your signer does not support NIP-44 encryption, which is required for DMs.") :=
  (capability_error_blocks_send ⟨"01", false, true⟩ "02" "hi" "em" "t" none
    ["R"] ["R"] [] ⟨1, 2, 3, 4, 5, "e1", "e2"⟩ ⟨[], [], [], [], []⟩ rfl).2.2.1

/-! ## Retry semantics (C3) -/

/-- C3 counterexample: a tracking record `{A: failed, B: sent, C: timeout}`.
`handleRetry` republishes the retained wrap to all three relays — including
`B`, which was already `sent` — and resets `B`'s status to `pending` as
well, contradicting the claim that only relays not in state `sent` are
republished and reset. -/
theorem handleRetry_republishes_sent_relay :
    ((handleRetry "rid"
        [("rid", ⟨[("A", .failed), ("B", .sent), ("C", .timedOut)],
          [(⟨"e1", 9, [["p", "02"]], .malformed 0, "s1"⟩, ["A", "B", "C"])]⟩)]).2.1 =
      [(⟨"e1", 9, [["p", "02"]], .malformed 0, "s1"⟩, "A"),
       (⟨"e1", 9, [["p", "02"]], .malformed 0, "s1"⟩, "B"),
       (⟨"e1", 9, [["p", "02"]], .malformed 0, "s1"⟩, "C")])
    ∧ ((lookupA "rid"
        (handleRetry "rid"
          [("rid", ⟨[("A", .failed), ("B", .sent), ("C", .timedOut)],
            [(⟨"e1", 9, [["p", "02"]], .malformed 0, "s1"⟩, ["A", "B", "C"])]⟩)]).1).map
          (fun s => lookupA "B" s.relays) = some (some .pending)) := by
  constructor
  · decide
  · decide

/-- C3 as amended: retry reuses only the originally signed wrap events
(no new events, hence no new ephemeral keys, re-encryption or re-signing)
and republishes each of them to its full original relay list — including
relays already in state `sent`; every tracked relay's status is reset to
`pending` (the tracked relay set is unchanged), and status races are
attached only to relays already present in the record. -/
theorem handleRetry_spec (rumorId : String)
    (sendStatuses : List (String × MsgSendStatus)) (status : MsgSendStatus)
    (hs : lookupA rumorId sendStatuses = some status) :
    (∀ w rs, (w, rs) ∈ status.retryWraps → ∀ r ∈ rs,
      (w, r) ∈ (handleRetry rumorId sendStatuses).2.1)
    ∧ (∀ op ∈ (handleRetry rumorId sendStatuses).2.1,
      ∃ wr ∈ status.retryWraps, op.1 = wr.1 ∧ op.2 ∈ wr.2)
    ∧ (∃ ns, lookupA rumorId (handleRetry rumorId sendStatuses).1 = some ns
        ∧ ns.relays.map (fun p => p.1) = status.relays.map (fun p => p.1)
        ∧ (∀ pr ∈ ns.relays, pr.2 = RelayStatus.pending)
        ∧ ns.retryWraps = status.retryWraps)
    ∧ (∀ r ∈ (handleRetry rumorId sendStatuses).2.2,
      r ∈ status.relays.map (fun p => p.1)) := by
  unfold handleRetry
  rw [hs]
  refine ⟨?_, ?_, ?_, ?_⟩
  · intro w rs hw r hr
    simp only [List.mem_flatMap]
    exact ⟨(w, rs), hw, by simp [poolPublish, hr]⟩
  · intro op hop
    simp only [List.mem_flatMap] at hop
    obtain ⟨wr, hwr, hop2⟩ := hop
    simp only [poolPublish, List.mem_map] at hop2
    obtain ⟨r, hr, hre⟩ := hop2
    exact ⟨wr, hwr, by simp [← hre], by simp [← hre, hr]⟩
  · refine ⟨_, lookupA_setA_self _ _ _, ?_, ?_, rfl⟩
    · simp
    · intro pr hpr
      simp only [List.mem_map] at hpr
      obtain ⟨q, _, hq⟩ := hpr
      simp [← hq]
  · intro r hr
    simp only [List.mem_flatMap, List.mem_filter] at hr
    obtain ⟨wr, _, _, hmem⟩ := hr
    simpa using hmem

/-- C3 witness: `handleRetry` applied at the concrete three-relay record
republishes the retained wrap to relay `"A"`. -/
theorem handleRetry_spec_witness :
    (⟨"e1", 9, [["p", "02"]], .malformed 0, "s1"⟩, "A") ∈
      (handleRetry "rid"
        [("rid", ⟨[("A", .failed), ("B", .sent), ("C", .timedOut)],
          [(⟨"e1", 9, [["p", "02"]], .malformed 0, "s1"⟩, ["A", "B", "C"])]⟩)]).2.1 :=
  (handleRetry_spec "rid"
    [("rid", ⟨[("A", .failed), ("B", .sent), ("C", .timedOut)],
      [(⟨"e1", 9, [["p", "02"]], .malformed 0, "s1"⟩, ["A", "B", "C"])]⟩)]
    ⟨[("A", .failed), ("B", .sent), ("C", .timedOut)],
      [(⟨"e1", 9, [["p", "02"]], .malformed 0, "s1"⟩, ["A", "B", "C"])]⟩
    (by decide)).1
    ⟨"e1", 9, [["p", "02"]], .malformed 0, "s1"⟩ ["A", "B", "C"] (by decide) "A" (by decide)

/-! ## Publish deduplication in `wrapAndSendDM` (C8) -/

theorem lookupA_isSome_iff {α : Type} (k : String) (m : List (String × α)) :
    (lookupA k m).isSome = true ↔ k ∈ m.map (fun p => p.1) := by
  induction m with
  | nil => simp [lookupA]
  | cons p rest ih =>
    obtain ⟨k₀, v₀⟩ := p
    by_cases h : k₀ = k
    · simp [lookupA_cons, h]
    · simp [lookupA_cons, h, ih, Ne.symm h]

theorem mem_setA {α : Type} {q : String × α} {k : String} {v : α}
    {m : List (String × α)} : q ∈ setA k v m → q = (k, v) ∨ q ∈ m := by
  induction m with
  | nil =>
    intro h
    simp only [setA, List.mem_singleton] at h
    exact Or.inl h
  | cons p rest ih =>
    intro h
    obtain ⟨k₀, v₀⟩ := p
    by_cases h0 : k₀ = k
    · simp only [setA, h0, if_true, List.mem_cons] at h
      rcases h with h | h
      · exact Or.inl h
      · exact Or.inr (List.mem_cons_of_mem _ h)
    · simp only [setA, h0, if_false, List.mem_cons] at h
      rcases h with h | h
      · exact Or.inr (by simp [h])
      · rcases ih h with h1 | h1
        · exact Or.inl h1
        · exact Or.inr (List.mem_cons_of_mem _ h1)

theorem keys_setA_of_not_mem {α : Type} {k : String} (v : α)
    {m : List (String × α)} (h : k ∉ m.map (fun p => p.1)) :
    (setA k v m).map (fun p => p.1) = m.map (fun p => p.1) ++ [k] := by
  induction m with
  | nil => simp [setA]
  | cons p rest ih =>
    obtain ⟨k₀, v₀⟩ := p
    simp only [List.map_cons, List.mem_cons] at h
    push_neg at h
    simp only [setA, Ne.symm h.1, if_false, List.map_cons, ih h.2, List.cons_append]

/-- The relay-map update step of the publish loop, for one relay of the
wrap `e`. -/
def relayMapStep (e : Wrap) (m : List (String × RelayPub)) (r : String) :
    List (String × RelayPub) :=
  if (lookupA r m).isSome then m else setA r (RelayPub.mk r (e, r)) m

/-- The first-occurrence accumulator step of `dedupe`. -/
def dedupeStep (acc : List String) (x : String) : List String :=
  if x ∈ acc then acc else acc ++ [x]

theorem relayMapStep_keys (e : Wrap) (m : List (String × RelayPub)) (r : String) :
    (relayMapStep e m r).map (fun p => p.1) =
      dedupeStep (m.map (fun p => p.1)) r := by
  unfold relayMapStep dedupeStep
  by_cases h : r ∈ m.map (fun p => p.1)
  · rw [if_pos ((lookupA_isSome_iff r m).mpr h), if_pos h]
  · rw [if_neg (fun hc => h ((lookupA_isSome_iff r m).mp hc)), if_neg h,
      keys_setA_of_not_mem _ h]

theorem innerFold_keys (rs : List String) (e : Wrap) :
    ∀ m : List (String × RelayPub),
      ((rs.foldl (relayMapStep e) m).map (fun p => p.1)) =
        rs.foldl dedupeStep (m.map (fun p => p.1)) := by
  induction rs with
  | nil => intro m; rfl
  | cons r rest ih =>
    intro m
    simp only [List.foldl_cons, ih, relayMapStep_keys]

theorem outerFold_keys (wraps : List (Wrap × List String)) :
    ∀ m : List (String × RelayPub),
      ((wraps.foldl (fun acc (w : Wrap × List String) =>
          w.2.foldl (relayMapStep w.1) acc) m).map (fun p => p.1)) =
        (wraps.flatMap (fun w => w.2)).foldl dedupeStep (m.map (fun p => p.1)) := by
  induction wraps with
  | nil => intro m; rfl
  | cons w ws ih =>
    intro m
    simp only [List.foldl_cons, List.flatMap_cons, List.foldl_append,
      ih, innerFold_keys]

theorem relayMap_entries_wf (wraps : List (Wrap × List String)) :
    ∀ m : List (String × RelayPub), (∀ p ∈ m, (p.2 : RelayPub).relay = p.1) →
      ∀ p ∈ wraps.foldl (fun acc (w : Wrap × List String) =>
          w.2.foldl (relayMapStep w.1) acc) m,
        (p.2 : RelayPub).relay = p.1 := by
  have inner : ∀ (rs : List String) (e : Wrap) (m : List (String × RelayPub)),
      (∀ p ∈ m, (p.2 : RelayPub).relay = p.1) →
      ∀ p ∈ rs.foldl (relayMapStep e) m, (p.2 : RelayPub).relay = p.1 := by
    intro rs e
    induction rs with
    | nil => intro m hm p hp; exact hm p hp
    | cons r rest ih =>
      intro m hm p hp
      refine ih _ ?_ p hp
      intro q hq
      unfold relayMapStep at hq
      by_cases hc : (lookupA r m).isSome = true
      · rw [if_pos hc] at hq
        exact hm q hq
      · rw [if_neg hc] at hq
        rcases mem_setA hq with h | h
        · rw [h]
        · exact hm q h
  induction wraps with
  | nil => intro m hm p hp; exact hm p hp
  | cons w ws ih =>
    intro m hm p hp
    exact ih _ (inner w.2 w.1 m hm) p hp

theorem dedupe_foldl_nodup : ∀ (xs acc : List String), acc.Nodup →
    (xs.foldl dedupeStep acc).Nodup := by
  intro xs
  induction xs with
  | nil => intro acc h; exact h
  | cons x rest ih =>
    intro acc h
    simp only [List.foldl_cons]
    apply ih
    unfold dedupeStep
    by_cases hx : x ∈ acc
    · rwa [if_pos hx]
    · rw [if_neg hx]
      simpa [List.nodup_append] using ⟨h, hx⟩

theorem dedupe_nodup (xs : List String) : (dedupe xs).Nodup :=
  dedupe_foldl_nodup xs [] List.nodup_nil

theorem trackRelaysInitial_pending (pubs : List RelayPub) :
    ∀ pr ∈ trackRelaysInitial pubs, pr.2 = RelayStatus.pending := by
  unfold trackRelaysInitial
  have gen : ∀ (ps : List RelayPub) (m : List (String × RelayStatus)),
      (∀ pr ∈ m, pr.2 = RelayStatus.pending) →
      ∀ pr ∈ ps.foldl (fun m p => setA p.relay RelayStatus.pending m) m,
        pr.2 = RelayStatus.pending := by
    intro ps
    induction ps with
    | nil => intro m hm pr hpr; exact hm pr hpr
    | cons p rest ih =>
      intro m hm pr hpr
      refine ih _ ?_ pr hpr
      intro q hq
      rcases mem_setA hq with h | h
      · rw [h]
      · exact hm q h
  intro pr hpr
  exact gen pubs [] (by simp) pr hpr

/-- C8 as amended: across the two wraps of a send, the *tracked* publish
entries are deduplicated — their relay list is exactly the first-occurrence
deduplication of the union of the wraps' relay lists, with no relay twice —
and every tracked relay starts `pending`; but the pool-level publishes are
issued per wrap over that wrap's full relay list, so a relay in both
destination sets receives one publish operation per wrap containing it,
not one overall. -/
theorem sendDM_publish_dedup (wraps : List (Wrap × List String)) :
    ((dedupedPublishes wraps).map (fun p => p.relay) =
      dedupe (wraps.flatMap (fun w => w.2)))
    ∧ ((dedupedPublishes wraps).map (fun p => p.relay)).Nodup
    ∧ (∀ w ∈ wraps, ∀ r ∈ w.2, (w.1, r) ∈ issuedPublishOps wraps)
    ∧ (∀ op ∈ issuedPublishOps wraps, ∃ w ∈ wraps, op.1 = w.1 ∧ op.2 ∈ w.2)
    ∧ (∀ pr ∈ trackRelaysInitial (dedupedPublishes wraps),
        pr.2 = RelayStatus.pending) := by
  have hmap : (dedupedPublishes wraps).map (fun p => p.relay) =
      (wraps.foldl (fun acc (w : Wrap × List String) =>
          w.2.foldl (relayMapStep w.1) acc) []).map (fun p => p.1) := by
    unfold dedupedPublishes
    rw [List.map_map]
    exact List.map_congr_left
      (fun p hp => relayMap_entries_wf wraps [] (by simp) p hp)
  have hkeys := outerFold_keys wraps []
  refine ⟨?_, ?_, ?_, ?_, trackRelaysInitial_pending _⟩
  · rw [hmap, hkeys]
    rfl
  · rw [hmap, hkeys]
    exact dedupe_foldl_nodup _ [] List.nodup_nil
  · intro w hw r hr
    unfold issuedPublishOps
    simp only [List.mem_flatMap]
    exact ⟨w, hw, by simp [poolPublish, hr]⟩
  · intro op hop
    unfold issuedPublishOps at hop
    simp only [List.mem_flatMap] at hop
    obtain ⟨w, hw, hop2⟩ := hop
    simp only [poolPublish, List.mem_map] at hop2
    obtain ⟨r, hr, hre⟩ := hop2
    exact ⟨w, hw, by simp [← hre], by simp [← hre, hr]⟩

/-- C8 witness: the deduplication applied to two concrete wraps sharing the
relay `"R"` — the tracked relay list is exactly `["R"]`. -/
theorem sendDM_publish_dedup_witness :
    (dedupedPublishes
        [(⟨"e1", 1, [["p", "02"]], .malformed 0, "s1"⟩, ["R"]),
         (⟨"e2", 2, [["p", "01"]], .malformed 1, "s2"⟩, ["R"])]).map
      (fun p => p.relay) =
      dedupe (([(⟨"e1", 1, [["p", "02"]], .malformed 0, "s1"⟩, ["R"]),
                (⟨"e2", 2, [["p", "01"]], .malformed 1, "s2"⟩, ["R"])] :
                List (Wrap × List String)).flatMap (fun w => w.2)) :=
  (sendDM_publish_dedup
    [(⟨"e1", 1, [["p", "02"]], .malformed 0, "s1"⟩, ["R"]),
     (⟨"e2", 2, [["p", "01"]], .malformed 1, "s2"⟩, ["R"])]).1

/-- C8 counterexample: with recipient and sender inboxes both `["R"]` and no
defaults, the single unique relay `"R"` receives two publish operations
(one per wrap), refuting "exactly one publish operation per unique relay",
while the returned tracking carries exactly one entry for it. -/
theorem wrapAndSendDM_shared_relay_double_publish :
    (wrapAndSendDM ⟨"01", true, true⟩ "02" "hi" (some "01") none ["R"] ["R"] []
        ⟨1, 2, 3, 4, 5, "e1", "e2"⟩).map
      (fun x => ((x.2.filter (fun o => o.2 = "R")).length,
                 x.1.publishes.map (fun p => p.relay))) = .ok (2, ["R"]) := by
  rfl

/-! ## Conversation-state accounting helpers -/

/-- Number of messages with rumor id `i` in one conversation. -/
def msgCountIn (c : Conversation) (i : String) : Nat :=
  c.messages.countP (fun m => m.id = i)

/-- Number of messages with rumor id `i` across all conversations. -/
def msgCountById (convs : List (String × Conversation)) (i : String) : Nat :=
  (convs.map (fun p => msgCountIn p.2 i)).sum

/-- The unread counter of a conversation, 0 when absent. -/
def unreadOf (st : DMState) (cid : String) : Nat :=
  match lookupA cid st.conversations with
  | some c => c.unreadCount
  | none => 0

/-- Number of reactions by `p` with emoji `e` in a reaction list. -/
def reactCountIn (l : List DMReaction) (p e : String) : Nat :=
  l.countP (fun r => r.pubkey = p ∧ r.emoji = e)

/-- Reactions by `p` with emoji `e` on message `tid` in live conversation
state. -/
def liveReactCount (st : DMState) (cid tid p e : String) : Nat :=
  match lookupA cid st.conversations with
  | some c => reactCountIn ((lookupA tid c.reactions).getD []) p e
  | none => 0

/-- Reactions by `p` with emoji `e` on message `tid` in the persisted
reaction cache. -/
def cacheReactCount (st : DMState) (cid tid p e : String) : Nat :=
  reactCountIn ((lookupA tid ((lookupA cid st.reactionStore).getD [])).getD []) p e

theorem msgCountById_setA_none {convs : List (String × Conversation)}
    {k : String} (v : Conversation) (i : String)
    (h : lookupA k convs = none) :
    msgCountById (setA k v convs) i = msgCountById convs i + msgCountIn v i := by
  induction convs with
  | nil => simp [msgCountById, setA]
  | cons p rest ih =>
    obtain ⟨k₀, c₀⟩ := p
    rw [lookupA_cons] at h
    by_cases h0 : k₀ = k
    · simp [h0] at h
    · rw [if_neg h0] at h
      simp only [setA, h0, if_false, msgCountById, List.map_cons, List.sum_cons]
      have := ih h
      simp only [msgCountById] at this
      omega

theorem msgCountById_setA_some {convs : List (String × Conversation)}
    {k : String} {c : Conversation} (v : Conversation) (i : String)
    (h : lookupA k convs = some c) :
    msgCountById (setA k v convs) i + msgCountIn c i
      = msgCountById convs i + msgCountIn v i := by
  induction convs with
  | nil => simp [lookupA] at h
  | cons p rest ih =>
    obtain ⟨k₀, c₀⟩ := p
    rw [lookupA_cons] at h
    by_cases h0 : k₀ = k
    · rw [if_pos h0] at h
      cases h
      simp only [setA, h0, if_true, msgCountById, List.map_cons, List.sum_cons]
      omega
    · rw [if_neg h0] at h
      simp only [setA, h0, if_false, msgCountById, List.map_cons, List.sum_cons]
      have := ih h
      simp only [msgCountById] at this
      omega

theorem msgCountIn_of_total_zero {convs : List (String × Conversation)}
    {k : String} {c : Conversation} {i : String}
    (htot : msgCountById convs i = 0) (h : lookupA k convs = some c) :
    msgCountIn c i = 0 := by
  induction convs with
  | nil => simp [lookupA] at h
  | cons p rest ih =>
    obtain ⟨k₀, c₀⟩ := p
    simp only [msgCountById, List.map_cons, List.sum_cons] at htot
    rw [lookupA_cons] at h
    by_cases h0 : k₀ = k
    · rw [if_pos h0] at h
      cases h
      omega
    · rw [if_neg h0] at h
      exact ih (by simp only [msgCountById]; omega) h

theorem insertByTime_countP (m : DMMessage) (l : List DMMessage)
    (p : DMMessage → Bool) :
    (insertByTime m l).countP p = l.countP p + (if p m then 1 else 0) := by
  induction l with
  | nil => simp [insertByTime, List.countP_cons]
  | cons y ys ih =>
    unfold insertByTime
    by_cases h : y.created_at ≤ m.created_at
    · rw [if_pos h]
      simp only [List.countP_cons, ih]
      omega
    · rw [if_neg h]
      simp only [List.countP_cons]

theorem sortByTime_countP (xs : List DMMessage) (p : DMMessage → Bool) :
    (sortByTime xs).countP p = xs.countP p := by
  suffices h : ∀ (ys : List DMMessage) (acc : List DMMessage),
      ((ys.foldl (fun acc m => insertByTime m acc) acc).countP p)
        = acc.countP p + ys.countP p by
    simpa using h xs []
  intro ys
  induction ys with
  | nil => intro acc; simp
  | cons y ys ih =>
    intro acc
    simp only [List.foldl_cons, ih, insertByTime_countP, List.countP_cons]
    omega


/-! ## Conversation reconciliation engine: ingestion lemmas (C4, C6, C7) -/


theorem addReaction_seen (r : Rumor) (st : DMState) :
    (addReactionToConversation r st).seenRumorIds = st.seenRumorIds := by
  unfold addReactionToConversation
  split
  · rfl
  · split
    · rfl
    · dsimp only
      split <;> split <;> first | rfl | (split <;> rfl)

theorem addMessage_of_seen (r : Rumor) (w my : String) (st : DMState)
    (h : r.id ∈ st.seenRumorIds) : addMessage r w my st = st := by
  unfold addMessage
  rw [if_pos h]

theorem addMessage_seen_eq (r : Rumor) (w my : String) (st : DMState) :
    (addMessage r w my st).seenRumorIds =
      if r.id ∈ st.seenRumorIds then st.seenRumorIds
      else r.id :: st.seenRumorIds := by
  unfold addMessage
  by_cases h : r.id ∈ st.seenRumorIds
  · rw [if_pos h, if_pos h]
  · rw [if_neg h, if_neg h]
    dsimp only
    split
    · rw [addReaction_seen]
    · split <;> first | rfl | (split <;> rfl)

theorem addMessage_mem_seen (r : Rumor) (w my : String) (st : DMState) :
    r.id ∈ (addMessage r w my st).seenRumorIds := by
  rw [addMessage_seen_eq]
  by_cases h : r.id ∈ st.seenRumorIds
  · rwa [if_pos h]
  · rw [if_neg h]
    exact List.mem_cons_self _ _

theorem addMessage_idem (r1 r2 : Rumor) (w1 w2 my : String) (st : DMState)
    (hid : r2.id = r1.id) :
    addMessage r2 w2 my (addMessage r1 w1 my st) = addMessage r1 w1 my st :=
  addMessage_of_seen r2 w2 my _ (hid ▸ addMessage_mem_seen r1 w1 my st)

theorem msgCountById_setA_some_zero {convs : List (String × Conversation)}
    {k : String} {c : Conversation} (v : Conversation) (i : String)
    (h : lookupA k convs = some c) (hc0 : msgCountIn c i = 0)
    (htot : msgCountById convs i = 0) :
    msgCountById (setA k v convs) i = msgCountIn v i := by
  have := msgCountById_setA_some v i h
  omega

theorem addMessage_msgCount (r : Rumor) (w my : String) (st : DMState)
    (hseen : r.id ∉ st.seenRumorIds) (hkind : r.kind ≠ 7)
    (hcnt : msgCountById st.conversations r.id = 0) :
    msgCountById (addMessage r w my st).conversations r.id = 1 := by
  unfold addMessage
  rw [if_neg hseen, if_neg hkind]
  dsimp only
  cases hc : lookupA (getConversationId r.pubkey (tagValues r.tags "p")) st.conversations with
  | none =>
    simp only [hc]
    rw [msgCountById_setA_none _ _ hc]
    simp [msgCountIn, hcnt, List.countP_cons]
  | some existing =>
    simp only [hc]
    have hin : msgCountIn existing r.id = 0 := msgCountIn_of_total_zero hcnt hc
    have hany : (existing.messages.any fun m => decide (m.id = r.id)) = false := by
      rw [List.any_eq_false]
      intro m hm
      have := List.countP_eq_zero.mp hin m hm
      simpa using this
    rw [if_neg (by simp [hany])]
    dsimp only
    rw [msgCountById_setA_some_zero _ _ hc hin hcnt]
    simp only [msgCountIn]
    rw [sortByTime_countP]
    simp only [msgCountIn] at hin
    simp [List.countP_append, List.countP_cons, hin]

theorem addMessage_kind7 (r : Rumor) (w my : String) (st : DMState)
    (hseen : r.id ∉ st.seenRumorIds) (hk : r.kind = 7) :
    addMessage r w my st =
      addReactionToConversation r
        { st with seenRumorIds := r.id :: st.seenRumorIds } := by
  unfold addMessage
  rw [if_neg hseen]
  dsimp only
  rw [if_pos hk]

theorem addReaction_counts_of_zero (r : Rumor) (st : DMState) (tid : String)
    (ex : Conversation)
    (htag : ((findTag r.tags "e").bind fun t => t[1]?) = some tid)
    (htid : tid ≠ "")
    (hconv : lookupA (getConversationId r.pubkey (tagValues r.tags "p"))
      st.conversations = some ex)
    (hl0 : liveReactCount st (getConversationId r.pubkey (tagValues r.tags "p"))
      tid r.pubkey r.content = 0)
    (hc0 : cacheReactCount st (getConversationId r.pubkey (tagValues r.tags "p"))
      tid r.pubkey r.content = 0) :
    liveReactCount (addReactionToConversation r st)
      (getConversationId r.pubkey (tagValues r.tags "p")) tid r.pubkey r.content = 1
    ∧ cacheReactCount (addReactionToConversation r st)
      (getConversationId r.pubkey (tagValues r.tags "p")) tid r.pubkey r.content = 1
    ∧ (addReactionToConversation r st).seenRumorIds = st.seenRumorIds
    ∧ (addReactionToConversation r st).lastSeenStore = st.lastSeenStore := by
  unfold cacheReactCount reactCountIn at hc0
  have hanyC : (((lookupA tid ((lookupA (getConversationId r.pubkey
      (tagValues r.tags "p")) st.reactionStore).getD [])).getD []).any
        fun x => decide (x.pubkey = r.pubkey ∧ x.emoji = r.content)) = false := by
    rw [List.any_eq_false]
    intro x hx
    have := List.countP_eq_zero.mp hc0 x hx
    simpa using this
  have hl0' : (((lookupA tid ex.reactions).getD []).countP
      fun x => decide (x.pubkey = r.pubkey ∧ x.emoji = r.content)) = 0 := by
    unfold liveReactCount at hl0
    rw [hconv] at hl0
    exact hl0
  have hanyL : (((lookupA tid ex.reactions).getD []).any
      fun x => decide (x.pubkey = r.pubkey ∧ x.emoji = r.content)) = false := by
    rw [List.any_eq_false]
    intro x hx
    have := List.countP_eq_zero.mp hl0' x hx
    simpa using this
  unfold addReactionToConversation
  simp only [htag]
  rw [if_neg htid]
  dsimp only
  rw [if_neg (by simp only [hanyC]; exact Bool.false_ne_true)]
  dsimp only
  simp only [hconv]
  rw [if_neg (by simp only [hanyL]; exact Bool.false_ne_true)]
  refine ⟨?_, ?_, rfl, rfl⟩
  · unfold liveReactCount
    dsimp only
    simp only [lookupA_setA_self, Option.getD_some]
    unfold reactCountIn
    simp [List.countP_append, List.countP_cons]
    intro a ha hpk
    have := List.countP_eq_zero.mp hl0' a ha
    simpa [hpk] using this
  · unfold cacheReactCount
    dsimp only
    simp only [lookupA_setA_self, Option.getD_some]
    unfold reactCountIn
    simp [List.countP_append, List.countP_cons]
    intro a ha hpk
    have := List.countP_eq_zero.mp hc0 a ha
    simpa [hpk] using this

theorem addReaction_noop_of_present (r : Rumor) (st : DMState) (tid : String)
    (htag : ((findTag r.tags "e").bind fun t => t[1]?) = some tid)
    (htid : tid ≠ "")
    (hcache1 : 1 ≤ cacheReactCount st
      (getConversationId r.pubkey (tagValues r.tags "p")) tid r.pubkey r.content)
    (hlive1 : ∀ c, lookupA (getConversationId r.pubkey (tagValues r.tags "p"))
        st.conversations = some c →
      1 ≤ reactCountIn ((lookupA tid c.reactions).getD []) r.pubkey r.content) :
    addReactionToConversation r st = st := by
  unfold cacheReactCount reactCountIn at hcache1
  have hanyC : (((lookupA tid ((lookupA (getConversationId r.pubkey
      (tagValues r.tags "p")) st.reactionStore).getD [])).getD []).any
        fun x => decide (x.pubkey = r.pubkey ∧ x.emoji = r.content)) = true := by
    rcases List.countP_pos_iff.mp (Nat.lt_of_lt_of_le Nat.zero_lt_one hcache1) with ⟨a, ha, hpa⟩
    exact List.any_eq_true.mpr ⟨a, ha, hpa⟩
  unfold addReactionToConversation
  simp only [htag]
  rw [if_neg htid]
  dsimp only
  rw [if_pos hanyC]
  cases hc : lookupA (getConversationId r.pubkey (tagValues r.tags "p"))
      st.conversations with
  | none => rfl
  | some c =>
    have h1 := hlive1 c hc
    unfold reactCountIn at h1
    have hanyL : (((lookupA tid c.reactions).getD []).any
        fun x => decide (x.pubkey = r.pubkey ∧ x.emoji = r.content)) = true := by
      rcases List.countP_pos_iff.mp (Nat.lt_of_lt_of_le Nat.zero_lt_one h1) with ⟨a, ha, hpa⟩
      exact List.any_eq_true.mpr ⟨a, ha, hpa⟩
    dsimp only
    rw [if_pos hanyL]

theorem addMessage_unread (r : Rumor) (w my : String) (st : DMState)
    (hseen : r.id ∉ st.seenRumorIds) (hkind : r.kind ≠ 7)
    (hnotin : ∀ c, lookupA (getConversationId r.pubkey (tagValues r.tags "p"))
        st.conversations = some c → msgCountIn c r.id = 0) :
    unreadOf (addMessage r w my st)
        (getConversationId r.pubkey (tagValues r.tags "p"))
      = unreadOf st (getConversationId r.pubkey (tagValues r.tags "p"))
        + (if r.pubkey ≠ my ∧ r.created_at >
            getLastSeen (getConversationId r.pubkey (tagValues r.tags "p")) st
          then 1 else 0) := by
  unfold addMessage
  rw [if_neg hseen, if_neg hkind]
  dsimp only
  cases hc : lookupA (getConversationId r.pubkey (tagValues r.tags "p"))
      st.conversations with
  | none =>
    simp only [hc]
    unfold unreadOf
    rw [lookupA_setA_self, hc]
    simp [getLastSeen]
  | some existing =>
    simp only [hc]
    have hin := hnotin existing hc
    have hany : (existing.messages.any fun m => decide (m.id = r.id)) = false := by
      rw [List.any_eq_false]
      intro m hm
      have := List.countP_eq_zero.mp hin m hm
      simpa using this
    rw [if_neg (by simp only [hany]; exact Bool.false_ne_true)]
    unfold unreadOf
    dsimp only
    rw [lookupA_setA_self, hc]
    simp [getLastSeen]

theorem markAsRead_spec (cid : String) (now : Nat) (st : DMState) :
    getLastSeen cid (markAsRead cid now st) = now
    ∧ unreadOf (markAsRead cid now st) cid = 0 := by
  unfold markAsRead
  dsimp only
  cases hc : lookupA cid st.conversations with
  | none =>
    simp only [hc]
    constructor
    · unfold getLastSeen
      rw [lookupA_setA_self]
      rfl
    · unfold unreadOf
      rw [hc]
  | some conv =>
    simp only [hc]
    by_cases hu : conv.unreadCount > 0
    · rw [if_pos hu]
      constructor
      · unfold getLastSeen
        dsimp only
        rw [lookupA_setA_self]
        rfl
      · unfold unreadOf
        dsimp only
        rw [lookupA_setA_self]
    · rw [if_neg hu]
      constructor
      · unfold getLastSeen
        rw [lookupA_setA_self]
        rfl
      · unfold unreadOf
        dsimp only
        rw [hc]
        dsimp only
        omega

/-- C4: ingestion is idempotent with respect to rumor id — feeding the
same wire event twice, or two wraps decrypting to rumors with the same id,
to `addMessage` leaves the state of the first ingestion unchanged, and
exactly one message with that rumor id exists in conversation state. -/
theorem ingest_idempotent_by_rumor_id (r1 r2 : Rumor) (w1 w2 my : String)
    (st : DMState) (hid : r2.id = r1.id)
    (hseen : r1.id ∉ st.seenRumorIds) (hkind : r1.kind ≠ 7)
    (hcnt : msgCountById st.conversations r1.id = 0) :
    addMessage r2 w2 my (addMessage r1 w1 my st) = addMessage r1 w1 my st
    ∧ msgCountById
        (addMessage r2 w2 my (addMessage r1 w1 my st)).conversations r1.id = 1 := by
  have h1 := addMessage_idem r1 r2 w1 w2 my st hid
  refine ⟨h1, ?_⟩
  rw [h1]
  exact addMessage_msgCount r1 w1 my st hseen hkind hcnt

/-- C4 witness: the same concrete rumor delivered under two wire ids. -/
theorem ingest_idempotent_by_rumor_id_witness :
    addMessage ⟨"r1", "a", 5, 14, [["p", "b"]], "hi"⟩ "w2" "b"
        (addMessage ⟨"r1", "a", 5, 14, [["p", "b"]], "hi"⟩ "w1" "b"
          ⟨[], [], [], [], []⟩)
      = addMessage ⟨"r1", "a", 5, 14, [["p", "b"]], "hi"⟩ "w1" "b"
          ⟨[], [], [], [], []⟩
    ∧ msgCountById
        (addMessage ⟨"r1", "a", 5, 14, [["p", "b"]], "hi"⟩ "w2" "b"
          (addMessage ⟨"r1", "a", 5, 14, [["p", "b"]], "hi"⟩ "w1" "b"
            ⟨[], [], [], [], []⟩)).conversations "r1" = 1 :=
  ingest_idempotent_by_rumor_id
    ⟨"r1", "a", 5, 14, [["p", "b"]], "hi"⟩
    ⟨"r1", "a", 5, 14, [["p", "b"]], "hi"⟩
    "w1" "w2" "b" ⟨[], [], [], [], []⟩ rfl (by decide) (by decide) (by decide)

/-- C6: a freshly ingested non-reaction message increments the unread
counter of its conversation by exactly 1 when its author is not the local
user and it is strictly newer than the persisted last-seen timestamp, and
leaves it unchanged otherwise; `markAsRead` sets the last-seen timestamp to
the mark time and zeroes the unread counter. -/
theorem unread_accounting (r : Rumor) (w my : String) (st : DMState)
    (cid2 : String) (now : Nat)
    (hseen : r.id ∉ st.seenRumorIds) (hkind : r.kind ≠ 7)
    (hnotin : ∀ c, lookupA (getConversationId r.pubkey (tagValues r.tags "p"))
        st.conversations = some c → msgCountIn c r.id = 0) :
    (unreadOf (addMessage r w my st)
        (getConversationId r.pubkey (tagValues r.tags "p"))
      = unreadOf st (getConversationId r.pubkey (tagValues r.tags "p"))
        + (if r.pubkey ≠ my ∧ r.created_at >
            getLastSeen (getConversationId r.pubkey (tagValues r.tags "p")) st
          then 1 else 0))
    ∧ getLastSeen cid2 (markAsRead cid2 now st) = now
    ∧ unreadOf (markAsRead cid2 now st) cid2 = 0 :=
  ⟨addMessage_unread r w my st hseen hkind hnotin,
   (markAsRead_spec cid2 now st).1, (markAsRead_spec cid2 now st).2⟩

/-- C6 witness: a peer message newer than last-seen on an empty state, and
a concrete mark-as-read. -/
theorem unread_accounting_witness :
    (unreadOf (addMessage ⟨"r1", "a", 5, 14, [["p", "b"]], "hi"⟩ "w1" "b"
        ⟨[], [], [], [], []⟩)
        (getConversationId "a" (tagValues [["p", "b"]] "p"))
      = unreadOf (⟨[], [], [], [], []⟩ : DMState)
          (getConversationId "a" (tagValues [["p", "b"]] "p"))
        + (if ("a" : String) ≠ "b" ∧ (5 : Nat) >
            getLastSeen (getConversationId "a" (tagValues [["p", "b"]] "p"))
              ⟨[], [], [], [], []⟩
          then 1 else 0))
    ∧ getLastSeen "a+b" (markAsRead "a+b" 9 ⟨[], [], [], [], []⟩) = 9
    ∧ unreadOf (markAsRead "a+b" 9 ⟨[], [], [], [], []⟩) "a+b" = 0 :=
  unread_accounting ⟨"r1", "a", 5, 14, [["p", "b"]], "hi"⟩ "w1" "b"
    ⟨[], [], [], [], []⟩ "a+b" 9 (by decide) (by decide)
    (by intro c hcv; simp [lookupA] at hcv)

/-- C7: two reaction rumors from the same pubkey with the same emoji on the
same target message produce exactly one reaction entry for that
(pubkey, emoji) pair — the second is discarded both in live conversation
state and in the persisted reaction cache. -/
theorem reaction_dedup (r1 r2 : Rumor) (w1 w2 my : String) (st : DMState)
    (tid : String) (ex : Conversation)
    (hk1 : r1.kind = 7) (hk2 : r2.kind = 7)
    (hs1 : r1.id ∉ st.seenRumorIds) (hs2 : r2.id ∉ st.seenRumorIds)
    (hne : r2.id ≠ r1.id)
    (hp : r2.pubkey = r1.pubkey) (hcont : r2.content = r1.content)
    (ht : r2.tags = r1.tags)
    (htag : ((findTag r1.tags "e").bind fun t => t[1]?) = some tid)
    (htid : tid ≠ "")
    (hconv : lookupA (getConversationId r1.pubkey (tagValues r1.tags "p"))
      st.conversations = some ex)
    (hl0 : liveReactCount st (getConversationId r1.pubkey (tagValues r1.tags "p"))
      tid r1.pubkey r1.content = 0)
    (hc0 : cacheReactCount st (getConversationId r1.pubkey (tagValues r1.tags "p"))
      tid r1.pubkey r1.content = 0) :
    liveReactCount (addMessage r2 w2 my (addMessage r1 w1 my st))
      (getConversationId r1.pubkey (tagValues r1.tags "p")) tid r1.pubkey r1.content = 1
    ∧ cacheReactCount (addMessage r2 w2 my (addMessage r1 w1 my st))
      (getConversationId r1.pubkey (tagValues r1.tags "p")) tid r1.pubkey r1.content = 1 := by
  rw [addMessage_kind7 r1 w1 my st hs1 hk1]
  obtain ⟨hl1, hc1, hseenB, _⟩ := addReaction_counts_of_zero r1
    { st with seenRumorIds := r1.id :: st.seenRumorIds } tid ex htag htid
    hconv hl0 hc0
  have hs2' : r2.id ∉ (addReactionToConversation r1
      { st with seenRumorIds := r1.id :: st.seenRumorIds }).seenRumorIds := by
    rw [hseenB]
    show r2.id ∉ r1.id :: st.seenRumorIds
    simp only [List.mem_cons]
    rintro (h | h)
    · exact hne h
    · exact hs2 h
  rw [addMessage_kind7 r2 w2 my _ hs2' hk2]
  have htag2 : ((findTag r2.tags "e").bind fun t => t[1]?) = some tid := by
    rw [ht]
    exact htag
  have hcache1 : 1 ≤ cacheReactCount
      { addReactionToConversation r1
          { st with seenRumorIds := r1.id :: st.seenRumorIds } with
        seenRumorIds := r2.id :: (addReactionToConversation r1
          { st with seenRumorIds := r1.id :: st.seenRumorIds }).seenRumorIds }
      (getConversationId r2.pubkey (tagValues r2.tags "p")) tid
      r2.pubkey r2.content := by
    rw [hp, hcont, ht]
    exact Nat.le_of_eq hc1.symm
  have hlive1 : ∀ c, lookupA (getConversationId r2.pubkey (tagValues r2.tags "p"))
      ({ addReactionToConversation r1
          { st with seenRumorIds := r1.id :: st.seenRumorIds } with
        seenRumorIds := r2.id :: (addReactionToConversation r1
          { st with seenRumorIds := r1.id :: st.seenRumorIds }).seenRumorIds }).conversations
      = some c →
      1 ≤ reactCountIn ((lookupA tid c.reactions).getD []) r2.pubkey r2.content := by
    intro c hcv
    rw [hp, ht] at hcv
    rw [hp, hcont]
    unfold liveReactCount at hl1
    rw [hcv] at hl1
    exact Nat.le_of_eq hl1.symm
  rw [addReaction_noop_of_present r2 _ tid htag2 htid hcache1 hlive1]
  exact ⟨hl1, hc1⟩

/-- C7 witness: two concrete reaction rumors from pubkey `"b"` with emoji
`"em"` on message `"m1"` in an existing conversation. -/
theorem reaction_dedup_witness :
    liveReactCount
      (addMessage ⟨"rr2", "b", 7, 7, [["p", "a"], ["e", "m1"]], "em"⟩ "w2" "a"
        (addMessage ⟨"rr1", "b", 6, 7, [["p", "a"], ["e", "m1"]], "em"⟩ "w1" "a"
          ⟨[], [("a+b", ⟨"a+b", ["a", "b"],
            [⟨"m1", "w0", "a", "hi", 5, [["p", "b"]]⟩], 5, 0, []⟩)], [], [], []⟩))
      (getConversationId "b" (tagValues [["p", "a"], ["e", "m1"]] "p"))
      "m1" "b" "em" = 1
    ∧ cacheReactCount
      (addMessage ⟨"rr2", "b", 7, 7, [["p", "a"], ["e", "m1"]], "em"⟩ "w2" "a"
        (addMessage ⟨"rr1", "b", 6, 7, [["p", "a"], ["e", "m1"]], "em"⟩ "w1" "a"
          ⟨[], [("a+b", ⟨"a+b", ["a", "b"],
            [⟨"m1", "w0", "a", "hi", 5, [["p", "b"]]⟩], 5, 0, []⟩)], [], [], []⟩))
      (getConversationId "b" (tagValues [["p", "a"], ["e", "m1"]] "p"))
      "m1" "b" "em" = 1 :=
  reaction_dedup
    ⟨"rr1", "b", 6, 7, [["p", "a"], ["e", "m1"]], "em"⟩
    ⟨"rr2", "b", 7, 7, [["p", "a"], ["e", "m1"]], "em"⟩
    "w1" "w2" "a"
    ⟨[], [("a+b", ⟨"a+b", ["a", "b"],
      [⟨"m1", "w0", "a", "hi", 5, [["p", "b"]]⟩], 5, 0, []⟩)], [], [], []⟩
    "m1"
    ⟨"a+b", ["a", "b"], [⟨"m1", "w0", "a", "hi", 5, [["p", "b"]]⟩], 5, 0, []⟩
    rfl rfl (by decide) (by decide) (by decide) rfl rfl rfl
    (by decide) (by decide) (by decide) (by decide) (by decide)


end NostrPolls
